import Mathlib

/-!
Verification of the job-queue core of the infinite-audio backend
(`src/main.py`): job data model, claim-based scheduling
(`process_one_mix_job`), the worker loop (`mix_worker_loop`), the enqueue
endpoint (`create_mix_job`), and the read endpoint (`get_mix_result`).

The Supabase `jobs` table is embedded as a list of rows (`Store`); each
Supabase call made by the source (filtered select, conditional update,
unconditional update, insert) is embedded as an atomic function on that
list.  Timestamps (`now_utc_iso()`) are modelled as natural-number clock
values supplied by the caller; wall-clock monotonicity across an `await`
is a hypothesis where a claim needs it.  Python exceptions are modelled by
the `PyResult` type, which records the store state at the moment the
exception escapes.
-/

namespace InfiniteAudio

/-- The `status` column: `Literal["queued", "processing", "completed", "failed"]`. -/
inductive JobStatus where
  | queued
  | processing
  | completed
  | failed
deriving DecidableEq, Repr

/-- `meta` block of `build_audit_results`. -/
structure AuditMeta where
  tool : String
  version : String
  generated_at : Nat
  context : String
deriving DecidableEq, Repr

/-- `summary` block of `build_audit_results`. -/
structure AuditSummary where
  headline : String
  what_to_fix_first : List String
deriving DecidableEq, Repr

/-- one entry of the `checks` list of `build_audit_results`. -/
structure AuditCheck where
  id : String
  status : String
  note : String
deriving DecidableEq, Repr

/-- `recommendations` block of `build_audit_results`. -/
structure AuditRecommendations where
  immediate : List String
  optional : List String
deriving DecidableEq, Repr

/-- The audit payload returned by `build_audit_results`. -/
structure AuditResults where
  meta : AuditMeta
  summary : AuditSummary
  checks : List AuditCheck
  recommendations : AuditRecommendations
  disclaimer : String
deriving DecidableEq, Repr

/-- `plan_snapshot`: opaque caller-supplied structured data (`Dict[str, Any]`). -/
abbrev PlanSnapshot : Type := List (String × String)

/-- A row of the `jobs` table, with the columns `create_mix_job` writes and
`process_one_mix_job` reads and updates.  `created_at` is filled by the
database at insert time; `context` is nullable because
`process_one_mix_job` defends against a missing value. -/
structure Job where
  id : Nat
  user_id : String
  type : String
  status : JobStatus
  mode : String
  context : Option String
  progress : Nat
  priority : Int
  plan_snapshot : PlanSnapshot
  input_bucket_key : String
  input_object_key : String
  filename : String
  content_type : String
  size_bytes : Int
  duration_seconds : Int
  input_file_size_bytes : Int
  stage : String
  created_at : Nat
  started_at : Option Nat
  completed_at : Option Nat
  audit_results : Option AuditResults
  error_message : Option String
deriving DecidableEq, Repr

/-- The `jobs` table: a list of rows. -/
abbrev Store : Type := List Job

/-- `POLL_INTERVAL_SECONDS = 2`. -/
def POLL_INTERVAL_SECONDS : Nat := 2

/-- `build_audit_results(context)` from `src/main.py`, with the
`generated_at` timestamp supplied as a clock value. -/
def build_audit_results (generated_at : Nat) (context : String) : AuditResults :=
  let common : AuditResults :=
    { meta :=
        { tool := "mix_intelligence"
          version := "0.1.0"
          generated_at := generated_at
          context := context }
      summary :=
        { headline := "Mix audit generated"
          what_to_fix_first :=
            [ "Check harshness in 2–5 kHz",
              "Check low-end overlap (kick vs bass)",
              "Check headroom and limiter behavior" ] }
      checks :=
        [ { id := "headroom", status := "unknown",
            note := "Reserve ~-6 dBFS pre-limiter for easier mastering." },
          { id := "low_end", status := "unknown",
            note := "Confirm kick fundamental vs bass fundamental aren’t stacking." },
          { id := "harshness", status := "unknown",
            note := "Sweep 2–5 kHz for piercing resonances." },
          { id := "stereo", status := "unknown",
            note := "Keep sub mono; widen mids/highs carefully." } ]
      recommendations :=
        { immediate :=
            [ "Pull master chain off and gain-stage to -6 dBFS peak.",
              "High-pass non-bass elements to clear sub mud.",
              "Use a dynamic EQ dip around the harshest band if needed." ]
          optional :=
            [ "Add gentle bus glue (1–2 dB GR) if the mix feels disjointed.",
              "Use transient shaping on drums if punch is lacking." ] }
      disclaimer :=
        "Early audit template. Replace 'unknown' with measured metrics once DSP is wired in." }
  if context = "LOOP" then
    { common with
        summary := { common.summary with
          what_to_fix_first :=
            [ "Prevent loop peaking or harsh resonances",
              "Ensure loop is drag-and-drop friendly (headroom)",
              "Avoid unnecessary master limiting" ] }
        recommendations := { common.recommendations with
          immediate :=
            "Remove any loudness maximizer. Deliver loops with headroom."
              :: common.recommendations.immediate } }
  else if context = "VOCAL" then
    { common with
        summary := { common.summary with
          what_to_fix_first :=
            [ "Sibilance control (5–9 kHz)",
              "Mud cleanup (150–350 Hz)",
              "Consistent vocal level (compression automation)" ] } }
  else if context = "DRUMS" then
    { common with
        summary := { common.summary with
          what_to_fix_first :=
            [ "Kick and snare transient clarity",
              "Tame cymbal harshness",
              "Bus clipping vs limiting choice" ] } }
  else common

/-- `str.upper()` on ASCII, written character by character so it reduces
definitionally. -/
def pyUpper (s : String) : String :=
  String.mk (s.data.map Char.toUpper)

/-- `(job.get("context") or "FULL_MIX").upper()`: a missing or empty
(falsy) context falls back to `"FULL_MIX"`, and the result is uppercased. -/
def effContext (c : Option String) : String :=
  match c with
  | none => pyUpper "FULL_MIX"
  | some s => if s = "" then pyUpper "FULL_MIX" else pyUpper s

/-! ## Store operations

Each Supabase call the source makes is one atomic operation on the table.
A `.update(fields).eq(...)` call rewrites every matching row and returns
the list of rewritten rows (`resp.data`). -/

/-- Apply `f` to every row satisfying `p`, leaving the others untouched:
the table state after an `update ... .eq(...)` call. -/
def applyIf (p : Job → Bool) (f : Job → Job) (store : Store) : Store :=
  store.map fun j => if p j then f j else j

/-- An `update(fields).eq(...)` call: the new table state together with
the list of updated rows that Supabase returns as `.data`. -/
def updateWhere (store : Store) (p : Job → Bool) (f : Job → Job) :
    Store × List Job :=
  (applyIf p f store, (store.filter p).map f)

/-- The field updates of the claim step (`status="processing"`,
`started_at=now`, `stage="analyzing"`, `progress=5`,
`error_message=None`). -/
def beginProcessingFields (now : Nat) (j : Job) : Job :=
  { j with
      status := JobStatus.processing
      started_at := some now
      stage := "analyzing"
      progress := 5
      error_message := none }

/-- The claim step of `process_one_mix_job`: a conditional update that
rewrites the row only where `id = jid` AND `status = "queued"` still
holds at write time. -/
def claimUpdate (store : Store) (jid : Nat) (now : Nat) : Store × List Job :=
  updateWhere store
    (fun j => decide (j.id = jid ∧ j.status = JobStatus.queued))
    (beginProcessingFields now)

/-- The field updates of the finalize step (`status="completed"`,
`completed_at=now`, `stage="done"`, `progress=100`,
`audit_results=audit`). -/
def completeFields (now : Nat) (audit : AuditResults) (j : Job) : Job :=
  { j with
      status := JobStatus.completed
      completed_at := some now
      stage := "done"
      progress := 100
      audit_results := some audit }

/-- The finalize step of `process_one_mix_job`: an unconditional update
keyed only on `id = jid`. -/
def doneUpdate (store : Store) (jid : Nat) (now : Nat) (audit : AuditResults) :
    Store × List Job :=
  updateWhere store (fun j => decide (j.id = jid)) (completeFields now audit)

/-- `insert(job_data)` on the `jobs` table: fails on a duplicate primary
key, otherwise appends the row and returns it as `.data`. -/
def storeInsert (store : Store) (j : Job) : Except String (Store × List Job) :=
  if store.any (fun k => decide (k.id = j.id)) then
    Except.error "duplicate key value violates unique constraint"
  else
    Except.ok (store ++ [j], [j])

/-- `created_at` ascending: the ordering applied by
`.order("created_at", desc=False)`. -/
def jobLE (a b : Job) : Prop := a.created_at ≤ b.created_at

instance : DecidableRel jobLE := fun a b =>
  inferInstanceAs (Decidable (a.created_at ≤ b.created_at))

instance : IsTotal Job jobLE := ⟨fun a b => Nat.le_total a.created_at b.created_at⟩

instance : IsTrans Job jobLE := ⟨fun _ _ _ h1 h2 => Nat.le_trans h1 h2⟩

/-- The selection query of `process_one_mix_job`: filter
`type = "MIX_INTELLIGENCE"` and `status = "queued"`; then either restrict
to the target id, or order by `created_at` ascending and take one row. -/
def selectRows (store : Store) (job_id : Option Nat) : List Job :=
  let base := store.filter fun j =>
    decide (j.type = "MIX_INTELLIGENCE" ∧ j.status = JobStatus.queued)
  match job_id with
  | some i => base.filter fun j => decide (j.id = i)
  | none => (List.insertionSort jobLE base).take 1

/-- Result of a Python call that may raise: on an escaping exception the
store keeps whatever writes already happened. -/
inductive PyResult (α : Type) where
  | ok (store : Store) (val : α)
  | exn (store : Store) (msg : String)
deriving DecidableEq

/-- The store state a `PyResult` carries. -/
def PyResult.store {α : Type} : PyResult α → Store
  | .ok s _ => s
  | .exn s _ => s

/-- `process_one_mix_job(job_id)` from `src/main.py`.

`analyze` is the Analyzer collaborator; in the source it is the total
call `build_audit_results(context)`, and an exception raised by it (or
anywhere between claim and finalize) propagates uncaught — the source has
no handler.  `interfere` is the writes other workers commit between this
worker's select and its claim (identity when the call runs alone);
`now1`/`now2` are the clock readings at the claim and finalize writes. -/
def process_one_mix_job (analyze : String → Except String AuditResults)
    (interfere : Store → Store) (now1 now2 : Nat)
    (store : Store) (job_id : Option Nat) : PyResult (Option Job) :=
  match selectRows store job_id with
  | [] => PyResult.ok store none
  | job :: _ =>
    let jid := job.id
    let s1 := interfere store
    let claim := claimUpdate s1 jid now1
    if claim.2.isEmpty then PyResult.ok claim.1 none
    else
      match analyze (effContext job.context) with
      | Except.error e => PyResult.exn claim.1 e
      | Except.ok audit =>
        let done := doneUpdate claim.1 jid now2 audit
        PyResult.ok done.1 done.2.head?

/-! ## API surface -/

/-- The JSON body `POST /mix-intelligence/process-next` answers with. -/
structure ProcessNextResponse where
  processed : Bool
  message : Option String
  job : Option Job
deriving DecidableEq

/-- The message returned when `process_one_mix_job` did no work. -/
def noQueuedMsg : String :=
  "No queued MIX_INTELLIGENCE jobs found (or job not queued)."

/-- `process_next_mix_job(job_id)` from `src/main.py`: both the
empty-queue case and the lost-claim case surface as the same
`processed=False` body; an exception escapes to the framework. -/
def process_next_mix_job (analyze : String → Except String AuditResults)
    (interfere : Store → Store) (now1 now2 : Nat)
    (store : Store) (job_id : Option Nat) : PyResult ProcessNextResponse :=
  match process_one_mix_job analyze interfere now1 now2 store job_id with
  | PyResult.exn s e => PyResult.exn s e
  | PyResult.ok s none =>
    PyResult.ok s { processed := false, message := some noQueuedMsg, job := none }
  | PyResult.ok s (some j) =>
    PyResult.ok s { processed := true, message := none, job := some j }

/-- `get_mix_result(job_id)` from `src/main.py`: select by id, limit 1;
404 when no row matches. -/
def get_mix_result (store : Store) (job_id : Nat) : Except String Job :=
  match (store.filter fun j => decide (j.id = job_id)).take 1 with
  | [] => Except.error "Job not found."
  | j :: _ => Except.ok j

/-- The raw JSON body of `POST /mix-intelligence/create`, before pydantic
validation: fields the caller may omit are `Option`s. -/
structure RawMixJobRequest where
  user_id : Option String
  context : Option String
  mode : Option String
  input_bucket_key : Option String
  input_object_key : Option String
  filename : Option String
  content_type : Option String
  size_bytes : Option Int
  duration_seconds : Option Int
  priority : Option Int
  plan_snapshot : Option PlanSnapshot
deriving DecidableEq

/-- A validated `MixJobRequest` (the pydantic model of `src/main.py`). -/
structure MixJobRequest where
  user_id : String
  context : String
  mode : String
  input_bucket_key : String
  input_object_key : String
  filename : String
  content_type : String
  size_bytes : Int
  duration_seconds : Int
  priority : Int
  plan_snapshot : PlanSnapshot
deriving DecidableEq

/-- `MixContext = Literal["FULL_MIX", "LOOP", "VOCAL", "DRUMS"]`. -/
def isMixContext (s : String) : Bool :=
  s = "FULL_MIX" || s = "LOOP" || s = "VOCAL" || s = "DRUMS"

/-- `JobMode = Literal["FAST", "SLOW"]`. -/
def isJobMode (s : String) : Bool :=
  s = "FAST" || s = "SLOW"

/-- Pydantic validation of `MixJobRequest`: required fields must be
present, `size_bytes ≥ 1`, `1 ≤ duration_seconds ≤ 600`,
`0 ≤ priority ≤ 100`, `context`/`mode` drawn from their literals;
defaults applied to the optional fields.  Runs before the endpoint body,
so a failure touches no store. -/
def validate_mix_job_request (r : RawMixJobRequest) :
    Except String MixJobRequest :=
  match r.input_bucket_key, r.input_object_key, r.filename, r.content_type,
      r.size_bytes, r.duration_seconds with
  | some ibk, some iok, some fn, some ct, some sb, some ds =>
    let ctx := r.context.getD "FULL_MIX"
    let mode := r.mode.getD "SLOW"
    let pr := r.priority.getD 0
    if decide (1 ≤ sb) && decide (1 ≤ ds) && decide (ds ≤ 600)
        && isMixContext ctx && isJobMode mode
        && decide (0 ≤ pr) && decide (pr ≤ 100) then
      Except.ok
        { user_id := r.user_id.getD "00000000-0000-0000-0000-000000000000"
          context := ctx
          mode := mode
          input_bucket_key := ibk
          input_object_key := iok
          filename := fn
          content_type := ct
          size_bytes := sb
          duration_seconds := ds
          priority := pr
          plan_snapshot := r.plan_snapshot.getD [] }
    else Except.error "ValidationError"
  | _, _, _, _, _, _ => Except.error "ValidationError"

/-- Outcome of `POST /mix-intelligence/create`, carrying the store so
"no row inserted" is visible. -/
inductive CreateResult where
  | ok (store : Store) (inserted : List Job)
  | validationError (store : Store) (msg : String)
  | httpError (store : Store) (code : Nat) (msg : String)
deriving DecidableEq

/-- `create_mix_job(request)` from `src/main.py`: pydantic validation
first (422, no store touch), then the insert of `job_data` with
`status="queued"`, `progress=0`, `stage="created"`; `gen_id` is the fresh
`uuid4`, `created_at` the database default timestamp. -/
def create_mix_job (gen_id : Nat) (created_at : Nat)
    (raw : RawMixJobRequest) (store : Store) : CreateResult :=
  match validate_mix_job_request raw with
  | Except.error e => CreateResult.validationError store e
  | Except.ok request =>
    let job : Job :=
      { id := gen_id
        user_id := request.user_id
        type := "MIX_INTELLIGENCE"
        status := JobStatus.queued
        mode := request.mode
        context := some request.context
        progress := 0
        priority := request.priority
        plan_snapshot := request.plan_snapshot
        input_bucket_key := request.input_bucket_key
        input_object_key := request.input_object_key
        filename := request.filename
        content_type := request.content_type
        size_bytes := request.size_bytes
        duration_seconds := request.duration_seconds
        input_file_size_bytes := request.size_bytes
        stage := "created"
        created_at := created_at
        started_at := none
        completed_at := none
        audit_results := none
        error_message := none }
    match storeInsert store job with
    | Except.error e =>
      CreateResult.httpError store 500 ("Failed to create job: " ++ e)
    | Except.ok (s, inserted) =>
      if inserted.isEmpty then
        CreateResult.httpError s 500 "Insert returned no data."
      else CreateResult.ok s inserted

/-! ## Worker loop -/

/-- What one `await process_one_mix_job()` inside `mix_worker_loop`
delivers: a value, a raised exception, or cancellation. -/
inductive LoopEvent where
  | value (r : Option Job)
  | raised (msg : String)
  | cancelled
deriving DecidableEq

/-- What one iteration of `mix_worker_loop` does next. -/
inductive LoopStep where
  | sleepThenContinue (secs : Nat) (log : Option String)
  | continueNow
  | exitLoop
deriving DecidableEq

/-- One iteration of `mix_worker_loop` from `src/main.py`: `None` sleeps
the poll interval; a processed job loops immediately;
`asyncio.CancelledError` breaks; any other exception is printed and the
loop sleeps the poll interval and continues. -/
def mix_worker_iteration : LoopEvent → LoopStep
  | LoopEvent.value none => LoopStep.sleepThenContinue POLL_INTERVAL_SECONDS none
  | LoopEvent.value (some _) => LoopStep.continueNow
  | LoopEvent.cancelled => LoopStep.exitLoop
  | LoopEvent.raised e =>
    LoopStep.sleepThenContinue POLL_INTERVAL_SECONDS
      (some ("[mix_worker] error: " ++ e))

/-- Run `mix_worker_loop` against a finite schedule of events; `true`
means the `while True` loop exited before the schedule ran out. -/
def mix_worker_run : List LoopEvent → Bool
  | [] => false
  | e :: es =>
    match mix_worker_iteration e with
    | LoopStep.exitLoop => true
    | _ => mix_worker_run es

/-! ## Interleaved store traces

The store is the only shared state; every write any worker or the API
performs is one of these atomic operations, so an arbitrary interleaving
of concurrent invocations is a list of `StoreOp`s. -/

/-- One atomic write against the `jobs` table. -/
inductive StoreOp where
  | claimOp (jid : Nat) (now : Nat)
  | finalizeOp (jid : Nat) (now : Nat) (audit : AuditResults)
  | insertOp (j : Job)

/-- Apply one atomic write to the table (a failed insert changes
nothing). -/
def applyOp (store : Store) : StoreOp → Store
  | StoreOp.claimOp jid now => (claimUpdate store jid now).1
  | StoreOp.finalizeOp jid now audit => (doneUpdate store jid now audit).1
  | StoreOp.insertOp j =>
    match storeInsert store j with
    | Except.ok (s, _) => s
    | Except.error _ => store

/-- Whether an operation is a claim of job `jid` whose conditional update
matched at least one row. -/
def claimOpSucceeds (store : Store) (op : StoreOp) (jid : Nat) : Bool :=
  match op with
  | StoreOp.claimOp i now => i == jid && !(claimUpdate store i now).2.isEmpty
  | _ => false

/-- Number of successful claims of job `jid` along a trace of atomic
store operations. -/
def countClaimSuccesses (store : Store) (jid : Nat) : List StoreOp → Nat
  | [] => 0
  | op :: ops =>
    (if claimOpSucceeds store op jid then 1 else 0)
      + countClaimSuccesses (applyOp store op) jid ops

/-! ## Concrete fixtures -/

/-- A row of the `jobs` table with the given id, status, priority and
creation time, all other columns fixed. -/
def mkJob (i : Nat) (st : JobStatus) (pr : Int) (created : Nat) : Job :=
  { id := i
    user_id := "u"
    type := "MIX_INTELLIGENCE"
    status := st
    mode := "SLOW"
    context := some "FULL_MIX"
    progress := 0
    priority := pr
    plan_snapshot := []
    input_bucket_key := "b"
    input_object_key := "k"
    filename := "f.wav"
    content_type := "audio/wav"
    size_bytes := 10
    duration_seconds := 10
    input_file_size_bytes := 10
    stage := "created"
    created_at := created
    started_at := none
    completed_at := none
    audit_results := none
    error_message := none }

/-- Queued job with priority 5, created at t0 = 0. -/
def exA : Job := mkJob 0 JobStatus.queued 5 0

/-- Queued job with priority 10, created at t1 = 1. -/
def exB : Job := mkJob 1 JobStatus.queued 10 1

/-- Queued job with priority 10, created at t2 = 2. -/
def exC : Job := mkJob 2 JobStatus.queued 10 2

/-- A row whose `type` is not `MIX_INTELLIGENCE`. -/
def exOther : Job := { mkJob 7 JobStatus.queued 0 0 with type := "TRANSCODE" }

/-- A row already in the terminal `completed` state. -/
def exDone : Job := { mkJob 8 JobStatus.completed 0 0 with progress := 100 }

/-- A concrete audit payload. -/
def exAudit : AuditResults := build_audit_results 0 "FULL_MIX"

/-- The Analyzer as the source instantiates it: the total call
`build_audit_results(context)` (clock fixed at 9). -/
def okAnalyze : String → Except String AuditResults :=
  fun c => Except.ok (build_audit_results 9 c)

/-- A create request whose `size_bytes` is 0, the rest well-formed. -/
def exRawBad : RawMixJobRequest :=
  { user_id := none
    context := none
    mode := none
    input_bucket_key := some "b"
    input_object_key := some "k"
    filename := some "f.wav"
    content_type := some "audio/wav"
    size_bytes := some 0
    duration_seconds := some 10
    priority := none
    plan_snapshot := none }

/-- The `id` column is the primary key: no two rows share it. -/
def UniqueIds (store : Store) : Prop := (store.map Job.id).Nodup

instance (store : Store) : Decidable (UniqueIds store) :=
  inferInstanceAs (Decidable ((store.map Job.id).Nodup))

/-- Safety invariant for job `jid`: the row exists and no row with that id
is still `queued`.  Established by a successful claim and preserved by
every later atomic store operation. -/
def SafeInv (store : Store) (jid : Nat) : Prop :=
  (∃ j ∈ store, j.id = jid)
    ∧ ∀ j ∈ store, j.id = jid → j.status ≠ JobStatus.queued

/-! ## Helper lemmas -/

theorem beginProcessingFields_id (now : Nat) (j : Job) :
    (beginProcessingFields now j).id = j.id := rfl

theorem completeFields_id (now : Nat) (audit : AuditResults) (j : Job) :
    (completeFields now audit j).id = j.id := rfl

theorem applyIf_of_filter_nil {p : Job → Bool} {f : Job → Job} {l : Store}
    (h : l.filter p = []) : applyIf p f l = l := by
  have h' := List.filter_eq_nil_iff.mp h
  induction l with
  | nil => rfl
  | cons a t ih =>
    have ha : p a = false := by
      have := h' a (List.mem_cons_self a t)
      simpa using this
    have ht : applyIf p f t = t := by
      apply ih
      · exact List.filter_eq_nil_iff.mpr fun x hx => h' x (List.mem_cons_of_mem a hx)
      · exact fun x hx => h' x (List.mem_cons_of_mem a hx)
    simp [applyIf, ha] at *
    simp [ht]

theorem filter_map_comm (q : Job → Bool) (g : Job → Job) (l : List Job)
    (h : ∀ k, q (g k) = q k) : (l.map g).filter q = (l.filter q).map g := by
  induction l with
  | nil => rfl
  | cons a t ih =>
    cases hq : q a with
    | true => simp [List.filter_cons, h a, hq, ih]
    | false => simp [List.filter_cons, h a, hq, ih]

theorem unique_cons {a : Job} {t : List Job} (hu : UniqueIds (a :: t)) :
    a.id ∉ t.map Job.id ∧ UniqueIds t := by
  have h : ((a :: t).map Job.id).Nodup := hu
  rw [List.map_cons] at h
  exact List.nodup_cons.mp h

theorem id_inj {store : Store} (hu : UniqueIds store) {j k : Job}
    (hj : j ∈ store) (hk : k ∈ store) (h : k.id = j.id) : k = j := by
  induction store with
  | nil => cases hj
  | cons a t ih =>
    have hnd := unique_cons hu
    rcases List.mem_cons.mp hj with hja | hjt
    · rcases List.mem_cons.mp hk with hka | hkt
      · rw [hja, hka]
      · exfalso
        apply hnd.1
        have hak : a.id = k.id := by rw [hja] at h; exact h.symm
        rw [hak]
        exact List.mem_map_of_mem Job.id hkt
    · rcases List.mem_cons.mp hk with hka | hkt
      · exfalso
        apply hnd.1
        have haj : a.id = j.id := by rw [hka] at h; exact h
        rw [haj]
        exact List.mem_map_of_mem Job.id hjt
      · exact ih hnd.2 hjt hkt

theorem filter_eq_single {p : Job → Bool} {store : Store} {j : Job}
    (hu : UniqueIds store) (hj : j ∈ store) (hpj : p j = true)
    (hid : ∀ k ∈ store, p k = true → k.id = j.id) :
    store.filter p = [j] := by
  induction store with
  | nil => cases hj
  | cons a t ih =>
    have hnd := unique_cons hu
    rcases List.mem_cons.mp hj with hja | hjt
    · subst hja
      have ht : t.filter p = [] := by
        apply List.filter_eq_nil_iff.mpr
        intro x hx hpx
        apply hnd.1
        rw [← hid x (List.mem_cons_of_mem j hx) (by simpa using hpx)]
        exact List.mem_map_of_mem Job.id hx
      simp [List.filter_cons, hpj, ht]
    · have hpa : p a = false := by
        cases hpa : p a with
        | false => rfl
        | true =>
          exfalso
          apply hnd.1
          rw [hid a (List.mem_cons_self a t) hpa]
          exact List.mem_map_of_mem Job.id hjt
      rw [List.filter_cons, if_neg (by simp [hpa])]
      exact ih hnd.2 hjt
        (fun k hk hpk => hid k (List.mem_cons_of_mem a hk) hpk)

theorem filter_eq_nil_of_unique {p : Job → Bool} {store : Store} {j : Job}
    (hu : UniqueIds store) (hj : j ∈ store) (hpj : p j = false)
    (hid : ∀ k ∈ store, p k = true → k.id = j.id) :
    store.filter p = [] := by
  apply List.filter_eq_nil_iff.mpr
  intro k hk hpk
  have : k = j := id_inj hu hj hk (hid k hk (by simpa using hpk))
  rw [this] at hpk
  simp [hpj] at hpk

theorem filter_id_applyIf (jid : Nat) (p : Job → Bool) (f : Job → Job)
    (hf : ∀ x, (f x).id = x.id) (l : Store) :
    (applyIf p f l).filter (fun k => decide (k.id = jid))
      = (l.filter (fun k => decide (k.id = jid))).map
          (fun k => if p k then f k else k) := by
  unfold applyIf
  apply filter_map_comm
  intro k
  cases hpk : p k <;> simp [hpk, hf]

/-- With a target id, the selection of `process_one_mix_job` returns
exactly the target row when it is an eligible queued `MIX_INTELLIGENCE`
job. -/
theorem selectRows_target_eq_single {store : Store} {j : Job}
    (hu : UniqueIds store) (hj : j ∈ store)
    (hty : j.type = "MIX_INTELLIGENCE") (hq : j.status = JobStatus.queued) :
    selectRows store (some j.id) = [j] := by
  show (store.filter _).filter _ = [j]
  rw [List.filter_filter]
  apply filter_eq_single hu hj
  · simp [hty, hq]
  · intro k _ hk
    simp at hk
    exact hk.1

/-- With a target id, the selection returns nothing when the target row is
not an eligible queued `MIX_INTELLIGENCE` job. -/
theorem selectRows_target_nil {store : Store} {j : Job}
    (hu : UniqueIds store) (hj : j ∈ store)
    (hne : ¬ (j.type = "MIX_INTELLIGENCE" ∧ j.status = JobStatus.queued)) :
    selectRows store (some j.id) = [] := by
  show (store.filter _).filter _ = []
  rw [List.filter_filter]
  apply filter_eq_nil_of_unique hu hj
  · rw [Bool.eq_false_iff]
    intro hc
    simp at hc
    exact hne hc
  · intro k _ hk
    simp at hk
    exact hk.1

/-- Every row the selection query returns is a queued `MIX_INTELLIGENCE`
row of the table. -/
theorem selectRows_mem {store : Store} {t : Option Nat} {k : Job}
    (hk : k ∈ selectRows store t) :
    k ∈ store ∧ k.type = "MIX_INTELLIGENCE" ∧ k.status = JobStatus.queued := by
  cases t with
  | some i =>
    have hk' : k ∈ store.filter
        (fun j => decide (j.type = "MIX_INTELLIGENCE" ∧ j.status = JobStatus.queued)) := by
      have := List.mem_filter.mp hk
      exact this.1
    have := List.mem_filter.mp hk'
    refine ⟨this.1, ?_, ?_⟩
    · exact (of_decide_eq_true this.2).1
    · exact (of_decide_eq_true this.2).2
  | none =>
    have hk1 : k ∈ List.insertionSort jobLE
        (store.filter
          (fun j => decide (j.type = "MIX_INTELLIGENCE" ∧ j.status = JobStatus.queued))) :=
      List.take_subset 1 _ hk
    have hk2 := (List.mem_insertionSort jobLE).mp hk1
    have := List.mem_filter.mp hk2
    refine ⟨this.1, ?_, ?_⟩
    · exact (of_decide_eq_true this.2).1
    · exact (of_decide_eq_true this.2).2

/-- When the selection finds nothing, `process_one_mix_job` returns
`None` with the store untouched. -/
theorem process_one_no_rows (analyze : String → Except String AuditResults)
    (interfere : Store → Store) (now1 now2 : Nat) (store : Store)
    (job_id : Option Nat) (hsel : selectRows store job_id = []) :
    process_one_mix_job analyze interfere now1 now2 store job_id
      = PyResult.ok store none := by
  simp [process_one_mix_job, hsel]

/-- When the conditional claim update matches no row (the race is lost),
`process_one_mix_job` returns `None` and writes nothing: the resulting
store is exactly the store the interleaved writers left. -/
theorem process_one_lost_race (analyze : String → Except String AuditResults)
    (interfere : Store → Store) (now1 now2 : Nat) (store : Store)
    (job_id : Option Nat) (j : Job) (rest : List Job)
    (hsel : selectRows store job_id = j :: rest)
    (hrace : (claimUpdate (interfere store) j.id now1).2 = []) :
    process_one_mix_job analyze interfere now1 now2 store job_id
      = PyResult.ok (interfere store) none := by
  have hfil : (interfere store).filter
      (fun k => decide (k.id = j.id ∧ k.status = JobStatus.queued)) = [] := by
    have h' : ((interfere store).filter
        (fun k => decide (k.id = j.id ∧ k.status = JobStatus.queued))).map
          (beginProcessingFields now1) = [] := hrace
    exact List.map_eq_nil_iff.mp h'
  have hstore : (claimUpdate (interfere store) j.id now1).1 = interfere store := by
    show applyIf _ _ (interfere store) = interfere store
    exact applyIf_of_filter_nil hfil
  simp only [process_one_mix_job, hsel]
  rw [hrace]
  simp [hstore]

/-- The conditional claim on the unique queued target row matches exactly
that row. -/
theorem claimUpdate_eq_single {store : Store} {j : Job} (hu : UniqueIds store)
    (hj : j ∈ store) (hq : j.status = JobStatus.queued) (now : Nat) :
    claimUpdate store j.id now
      = (applyIf (fun k => decide (k.id = j.id ∧ k.status = JobStatus.queued))
          (beginProcessingFields now) store,
         [beginProcessingFields now j]) := by
  have hfil : store.filter
      (fun k => decide (k.id = j.id ∧ k.status = JobStatus.queued)) = [j] := by
    apply filter_eq_single hu hj
    · simp [hq]
    · intro k _ hk
      simp at hk
      exact hk.1
  unfold claimUpdate updateWhere
  rw [hfil]
  rfl

/-- The unique row with the target id, after the claim update, is the
claimed copy of the target. -/
theorem filter_id_after_claim {store : Store} {j : Job} (hu : UniqueIds store)
    (hj : j ∈ store) (hq : j.status = JobStatus.queued) (now : Nat) :
    (applyIf (fun k => decide (k.id = j.id ∧ k.status = JobStatus.queued))
        (beginProcessingFields now) store).filter
      (fun k => decide (k.id = j.id)) = [beginProcessingFields now j] := by
  rw [filter_id_applyIf j.id
    (fun k => decide (k.id = j.id ∧ k.status = JobStatus.queued))
    (beginProcessingFields now) (fun x => rfl)]
  have hfid : store.filter (fun k => decide (k.id = j.id)) = [j] := by
    apply filter_eq_single hu hj
    · simp
    · intro k _ hk
      simpa using hk
  rw [hfid]
  simp [hq]

/-- Sequential happy path of `process_one_mix_job`: unique queued
`MIX_INTELLIGENCE` target, Analyzer returns a payload. -/
theorem process_one_success (analyze : String → Except String AuditResults)
    (now1 now2 : Nat) (store : Store) (j : Job) (audit : AuditResults)
    (hu : UniqueIds store) (hj : j ∈ store)
    (hq : j.status = JobStatus.queued) (hty : j.type = "MIX_INTELLIGENCE")
    (han : analyze (effContext j.context) = Except.ok audit) :
    process_one_mix_job analyze id now1 now2 store (some j.id)
      = PyResult.ok
          (applyIf (fun k => decide (k.id = j.id)) (completeFields now2 audit)
            (applyIf (fun k => decide (k.id = j.id ∧ k.status = JobStatus.queued))
              (beginProcessingFields now1) store))
          (some (completeFields now2 audit (beginProcessingFields now1 j))) := by
  have hsel := selectRows_target_eq_single hu hj hty hq
  have hclaim := claimUpdate_eq_single hu hj hq now1
  have hfil2 := filter_id_after_claim hu hj hq now1
  simp only [process_one_mix_job, hsel, id_eq, hclaim, han]
  simp only [List.isEmpty_cons, Bool.false_eq_true, if_false]
  unfold doneUpdate updateWhere
  rw [hfil2]
  rfl

/-- Sequential failure path of `process_one_mix_job`: unique queued
`MIX_INTELLIGENCE` target, Analyzer raises.  The exception escapes with
the claim already written and no further write. -/
theorem process_one_analyzer_error (analyze : String → Except String AuditResults)
    (now1 now2 : Nat) (store : Store) (j : Job) (msg : String)
    (hu : UniqueIds store) (hj : j ∈ store)
    (hq : j.status = JobStatus.queued) (hty : j.type = "MIX_INTELLIGENCE")
    (han : analyze (effContext j.context) = Except.error msg) :
    process_one_mix_job analyze id now1 now2 store (some j.id)
      = PyResult.exn
          (applyIf (fun k => decide (k.id = j.id ∧ k.status = JobStatus.queued))
            (beginProcessingFields now1) store) msg := by
  have hsel := selectRows_target_eq_single hu hj hty hq
  have hclaim := claimUpdate_eq_single hu hj hq now1
  simp only [process_one_mix_job, hsel, id_eq, hclaim, han]
  simp only [List.isEmpty_cons, Bool.false_eq_true, if_false]

/-! ## Lemmas about interleaved traces -/

theorem safeInv_applyIf {store : Store} {jid : Nat} (h : SafeInv store jid)
    (p : Job → Bool) (f : Job → Job) (hfid : ∀ x, (f x).id = x.id)
    (hfst : ∀ x, (f x).status ≠ JobStatus.queued) :
    SafeInv (applyIf p f store) jid := by
  obtain ⟨⟨w, hw, hwid⟩, hall⟩ := h
  constructor
  · refine ⟨if p w then f w else w, List.mem_map_of_mem _ hw, ?_⟩
    cases hp : p w <;> simp [hfid, hwid]
  · intro x hx hxid
    obtain ⟨k, hk, hkx⟩ := List.mem_map.mp hx
    by_cases hp : p k = true
    · rw [← hkx, if_pos hp]
      exact hfst k
    · rw [← hkx, if_neg hp] at hxid ⊢
      exact hall k hk hxid

theorem safeInv_preserved {store : Store} {jid : Nat} (h : SafeInv store jid)
    (op : StoreOp) : SafeInv (applyOp store op) jid := by
  cases op with
  | claimOp i now =>
    exact safeInv_applyIf h _ _ (fun x => rfl) (fun x => by
      simp [beginProcessingFields])
  | finalizeOp i now audit =>
    exact safeInv_applyIf h _ _ (fun x => rfl) (fun x => by
      simp [completeFields])
  | insertOp j =>
    obtain ⟨⟨w, hw, hwid⟩, hall⟩ := h
    show SafeInv (match storeInsert store j with
      | Except.ok (s, _) => s
      | Except.error _ => store) jid
    unfold storeInsert
    by_cases hc : store.any (fun k => decide (k.id = j.id)) = true
    · rw [if_pos hc]
      exact ⟨⟨w, hw, hwid⟩, hall⟩
    · rw [if_neg hc]
      constructor
      · exact ⟨w, List.mem_append_left _ hw, hwid⟩
      · intro x hx hxid
        rcases List.mem_append.mp hx with hx' | hx'
        · exact hall x hx' hxid
        · exfalso
          have hxj : x = j := by simpa using hx'
          have hne := List.any_eq_false.mp (Bool.eq_false_iff.mpr hc) w hw
          apply hne
          simp [hwid, ← hxid, hxj]

theorem safeInv_blocks_claim {store : Store} {jid : Nat} (h : SafeInv store jid)
    (op : StoreOp) : claimOpSucceeds store op jid = false := by
  cases op with
  | finalizeOp i now audit => rfl
  | insertOp j => rfl
  | claimOp i now =>
    unfold claimOpSucceeds
    by_cases hi : i = jid
    · subst hi
      have hfil : store.filter
          (fun k => decide (k.id = i ∧ k.status = JobStatus.queued)) = [] := by
        apply List.filter_eq_nil_iff.mpr
        intro k hk hp
        obtain ⟨hkid, hkq⟩ := of_decide_eq_true hp
        exact h.2 k hk hkid hkq
      show (i == i && !((store.filter
          (fun k => decide (k.id = i ∧ k.status = JobStatus.queued))).map
            (beginProcessingFields now)).isEmpty) = false
      rw [hfil]
      simp
    · simp [hi]

theorem claim_success_safeInv {store : Store} {jid : Nat} {op : StoreOp}
    (h : claimOpSucceeds store op jid = true) : SafeInv (applyOp store op) jid := by
  cases op with
  | finalizeOp i now audit => simp [claimOpSucceeds] at h
  | insertOp j => simp [claimOpSucceeds] at h
  | claimOp i now =>
    have hij : i = jid := by
      have := (Bool.and_eq_true _ _).mp h
      simpa using this.1
    subst hij
    have hne : store.filter
        (fun k => decide (k.id = i ∧ k.status = JobStatus.queued)) ≠ [] := by
      intro hnil
      have := (Bool.and_eq_true _ _).mp h
      rw [show (claimUpdate store i now).2
          = (store.filter (fun k => decide (k.id = i ∧ k.status = JobStatus.queued))).map
            (beginProcessingFields now) from rfl, hnil] at this
      simp at this
    obtain ⟨x, hxmem⟩ := List.exists_mem_of_ne_nil _ hne
    have hx := List.mem_filter.mp hxmem
    obtain ⟨hxid, hxq⟩ := of_decide_eq_true hx.2
    show SafeInv (applyIf _ _ store) i
    constructor
    · refine ⟨beginProcessingFields now x, ?_, hxid⟩
      apply List.mem_map.mpr
      exact ⟨x, hx.1, by simp [hxid, hxq]⟩
    · intro y hy hyid
      obtain ⟨k, hk, hky⟩ := List.mem_map.mp hy
      by_cases hp : (decide (k.id = i ∧ k.status = JobStatus.queued)) = true
      · rw [← hky, if_pos hp]
        simp [beginProcessingFields]
      · rw [← hky, if_neg hp] at hyid ⊢
        intro hq
        exact hp (decide_eq_true ⟨hyid, hq⟩)

theorem safeInv_count_zero {jid : Nat} (ops : List StoreOp) {store : Store}
    (h : SafeInv store jid) : countClaimSuccesses store jid ops = 0 := by
  induction ops generalizing store with
  | nil => rfl
  | cons op rest ih =>
    show (if claimOpSucceeds store op jid then 1 else 0)
        + countClaimSuccesses (applyOp store op) jid rest = 0
    rw [safeInv_blocks_claim h op, if_neg (by simp), ih (safeInv_preserved h op)]

/-- Every validation failure carries the single validation-error value. -/
theorem validate_error_msg {r : RawMixJobRequest} {e : String}
    (he : validate_mix_job_request r = Except.error e) : e = "ValidationError" := by
  unfold validate_mix_job_request at he
  split at he
  · simp only [] at he
    split at he
    · simp at he
    · simpa using he.symm
  · simpa using he.symm

/-- A request with `size_bytes = 0` fails validation. -/
theorem validate_size_zero {r : RawMixJobRequest} (h0 : r.size_bytes = some 0) :
    ∃ e, validate_mix_job_request r = Except.error e := by
  unfold validate_mix_job_request
  split
  next ibk iok fn ct sb ds h1 h2 h3 h4 h5 h6 =>
    simp only []
    rw [h0] at h5
    have hsb : sb = 0 := by simpa using h5.symm
    rw [if_neg (by simp [hsb])]
    exact ⟨_, rfl⟩
  next => exact ⟨_, rfl⟩

/-- A request with `duration_seconds = 0` fails validation. -/
theorem validate_duration_zero {r : RawMixJobRequest}
    (h0 : r.duration_seconds = some 0) :
    ∃ e, validate_mix_job_request r = Except.error e := by
  unfold validate_mix_job_request
  split
  next ibk iok fn ct sb ds h1 h2 h3 h4 h5 h6 =>
    simp only []
    rw [h0] at h6
    have hds : ds = 0 := by simpa using h6.symm
    rw [if_neg (by simp [hds])]
    exact ⟨_, rfl⟩
  next => exact ⟨_, rfl⟩

/-! ## Claims -/

/-- C1: in `process_one_mix_job` the transition of the selected job to
`processing` is issued as a conditional update gated on the row's status
still being `queued` at write time — rows not in that state survive the
claim write untouched — and whenever the condition matches no row the
call returns `None`, performing no further write to the store and not
retrying the job. -/
theorem claim_is_conditional_and_lost_race_is_silent
    (analyze : String → Except String AuditResults) (interfere : Store → Store)
    (now1 now2 : Nat) (store : Store) (job_id : Option Nat)
    (j : Job) (rest : List Job)
    (hsel : selectRows store job_id = j :: rest) :
    (∀ k ∈ interfere store,
        ¬ (k.id = j.id ∧ k.status = JobStatus.queued) →
          k ∈ (claimUpdate (interfere store) j.id now1).1)
    ∧ ((claimUpdate (interfere store) j.id now1).2 = [] →
        process_one_mix_job analyze interfere now1 now2 store job_id
          = PyResult.ok (interfere store) none) := by
  constructor
  · intro k hk hnp
    have hpk : decide (k.id = j.id ∧ k.status = JobStatus.queued) = false := by
      simpa using hnp
    show k ∈ applyIf _ _ (interfere store)
    unfold applyIf
    exact List.mem_map.mpr ⟨k, hk, by simp [hpk]⟩
  · exact process_one_lost_race analyze interfere now1 now2 store job_id j rest hsel

theorem claim_is_conditional_and_lost_race_is_silent_witness :
    process_one_mix_job okAnalyze (fun s => (claimUpdate s 0 1).1) 3 4
        [exA] (some 0)
      = PyResult.ok [beginProcessingFields 1 exA] none := by
  have h := (claim_is_conditional_and_lost_race_is_silent okAnalyze
      (fun s => (claimUpdate s 0 1).1) 3 4 [exA] (some 0) exA []
      (by decide)).2 (by decide)
  exact h

/-- C2 counterexample: with jobs A(priority 5, created t0=0),
B(priority 10, created t1=1), C(priority 10, created t2=2), all queued
`MIX_INTELLIGENCE`, the untargeted selection picks A — the oldest,
lowest-priority job — not B as priority-descending ordering would
require. -/
theorem selection_ignores_priority_counterexample :
    exA.priority = 5 ∧ exB.priority = 10 ∧ exC.priority = 10
    ∧ exA.created_at < exB.created_at ∧ exB.created_at < exC.created_at
    ∧ (∀ j ∈ ([exA, exB, exC] : Store),
        j.status = JobStatus.queued ∧ j.type = "MIX_INTELLIGENCE")
    ∧ selectRows [exA, exB, exC] none = [exA]
    ∧ exA ≠ exB := by decide

/-- C2 amended: without a target id, `process_one_mix_job` selects the
first among queued `MIX_INTELLIGENCE` jobs ordered by `created_at`
ascending only — priority is ignored; for the A/B/C example, the
selection order is A, B, C. -/
theorem selection_fifo_by_created_at (store : Store) (j : Job)
    (rest : List Job) (hsel : selectRows store none = j :: rest) :
    (j ∈ store ∧ j.type = "MIX_INTELLIGENCE" ∧ j.status = JobStatus.queued
      ∧ ∀ k ∈ store, k.type = "MIX_INTELLIGENCE" →
          k.status = JobStatus.queued → j.created_at ≤ k.created_at)
    ∧ (selectRows [exA, exB, exC] none = [exA]
      ∧ selectRows [completeFields 4 exAudit (beginProcessingFields 3 exA),
          exB, exC] none = [exB]
      ∧ selectRows [completeFields 4 exAudit (beginProcessingFields 3 exA),
          completeFields 6 exAudit (beginProcessingFields 5 exB), exC] none
          = [exC]) := by
  constructor
  · have hjmem : j ∈ selectRows store none := by
      rw [hsel]
      exact List.mem_cons_self j rest
    have hmem := selectRows_mem hjmem
    refine ⟨hmem.1, hmem.2.1, hmem.2.2, ?_⟩
    intro k hk hkty hkq
    have hsel' : (List.insertionSort jobLE (store.filter (fun x =>
        decide (x.type = "MIX_INTELLIGENCE" ∧ x.status = JobStatus.queued)))).take 1
        = j :: rest := hsel
    cases hs : List.insertionSort jobLE (store.filter (fun x =>
        decide (x.type = "MIX_INTELLIGENCE" ∧ x.status = JobStatus.queued))) with
    | nil =>
      rw [hs] at hsel'
      simp at hsel'
    | cons a tl =>
      rw [hs] at hsel'
      have haj : a = j := by
        have : ([a] : List Job) = j :: rest := hsel'
        exact (List.cons.injEq _ _ _ _).mp this |>.1
      have hkbase : k ∈ store.filter (fun x =>
          decide (x.type = "MIX_INTELLIGENCE" ∧ x.status = JobStatus.queued)) :=
        List.mem_filter.mpr ⟨hk, by simp [hkty, hkq]⟩
      have hksort : k ∈ a :: tl := by
        rw [← hs]
        exact (List.mem_insertionSort jobLE).mpr hkbase
      have hsorted : List.Sorted jobLE (a :: tl) := by
        rw [← hs]
        exact List.sorted_insertionSort jobLE _
      rcases List.mem_cons.mp hksort with hka | hktl
      · rw [haj] at hka
        rw [hka]
      · have hle : jobLE a k := List.rel_of_sorted_cons hsorted k hktl
        rw [← haj]
        exact hle
  · exact ⟨by decide, by decide, by decide⟩

theorem selection_fifo_by_created_at_witness :
    exA ∈ ([exB, exA] : Store) ∧ exA.type = "MIX_INTELLIGENCE"
    ∧ exA.status = JobStatus.queued
    ∧ ∀ k ∈ ([exB, exA] : Store), k.type = "MIX_INTELLIGENCE" →
        k.status = JobStatus.queued → exA.created_at ≤ k.created_at :=
  (selection_fifo_by_created_at [exB, exA] exA [] (by decide)).1

/-- C3: along any interleaving of the atomic store writes that concurrent
`process_one_mix_job` invocations and the API can issue, at most one
conditional claim with expected status `queued` succeeds for any given
job id; every other claim attempt on it matches no row, so no two workers
both process the same job instance. -/
theorem at_most_one_claim_succeeds (store : Store) (jid : Nat)
    (ops : List StoreOp) : countClaimSuccesses store jid ops ≤ 1 := by
  induction ops generalizing store with
  | nil => exact Nat.zero_le 1
  | cons op rest ih =>
    show (if claimOpSucceeds store op jid then 1 else 0)
        + countClaimSuccesses (applyOp store op) jid rest ≤ 1
    cases hs : claimOpSucceeds store op jid with
    | true =>
      have h0 := safeInv_count_zero rest (claim_success_safeInv hs)
      simp [h0]
    | false => simpa using ih (applyOp store op)

/-- C6: a job in a terminal state (`completed` or `failed`) never
transitions again: targeting it by id yields `None` with the store
unchanged, it never appears in the untargeted selection, and a
conditional claim against it matches no row and rewrites nothing. -/
theorem terminal_jobs_never_claimed
    (analyze : String → Except String AuditResults) (interfere : Store → Store)
    (now1 now2 now : Nat) (store : Store) (j : Job)
    (hu : UniqueIds store) (hj : j ∈ store)
    (hterm : j.status = JobStatus.completed ∨ j.status = JobStatus.failed) :
    process_one_mix_job analyze interfere now1 now2 store (some j.id)
      = PyResult.ok store none
    ∧ (∀ k ∈ selectRows store none, k.id ≠ j.id)
    ∧ claimUpdate store j.id now = (store, []) := by
  have hnq : j.status ≠ JobStatus.queued := by
    rcases hterm with h | h <;> simp [h]
  refine ⟨?_, ?_, ?_⟩
  · apply process_one_no_rows
    exact selectRows_target_nil hu hj (fun hc => hnq hc.2)
  · intro k hk hkid
    have hkmem := selectRows_mem hk
    have hkj : k = j := id_inj hu hj hkmem.1 hkid
    rw [hkj] at hkmem
    exact hnq hkmem.2.2
  · have hfil : store.filter
        (fun k => decide (k.id = j.id ∧ k.status = JobStatus.queued)) = [] := by
      apply filter_eq_nil_of_unique hu hj
      · rw [Bool.eq_false_iff]
        intro hc
        simp at hc
        exact hnq hc
      · intro k _ hk
        simp at hk
        exact hk.1
    unfold claimUpdate updateWhere
    rw [hfil, applyIf_of_filter_nil hfil]
    rfl

theorem terminal_jobs_never_claimed_witness :
    process_one_mix_job okAnalyze id 1 2 [exDone] (some 8)
      = PyResult.ok [exDone] none
    ∧ claimUpdate [exDone] 8 5 = ([exDone], []) := by
  have h := terminal_jobs_never_claimed okAnalyze id 1 2 5 [exDone] exDone
      (by decide) (by decide) (Or.inl rfl)
  exact ⟨h.1, h.2.2⟩

/-- C10: `process_one_mix_job` only ever selects and claims jobs whose
`type` is `MIX_INTELLIGENCE`: a job of any other type, even when targeted
explicitly by its id, yields `None` with the store untouched, and every
row the selection can return has that type. -/
theorem only_mix_intelligence_selected
    (analyze : String → Except String AuditResults) (interfere : Store → Store)
    (now1 now2 : Nat) (store : Store) (j : Job)
    (hu : UniqueIds store) (hj : j ∈ store)
    (hty : j.type ≠ "MIX_INTELLIGENCE") :
    process_one_mix_job analyze interfere now1 now2 store (some j.id)
      = PyResult.ok store none
    ∧ ∀ (t : Option Nat) (k : Job), k ∈ selectRows store t →
        k.type = "MIX_INTELLIGENCE" := by
  constructor
  · apply process_one_no_rows
    exact selectRows_target_nil hu hj (fun hc => hty hc.1)
  · intro t k hk
    exact (selectRows_mem hk).2.1

theorem only_mix_intelligence_selected_witness :
    process_one_mix_job okAnalyze id 1 2 [exOther] (some 7)
      = PyResult.ok [exOther] none := by
  have h := (only_mix_intelligence_selected okAnalyze id 1 2 [exOther] exOther
      (by decide) (by decide) (by decide)).1
  exact h

/-- C4: successful cycle — a queued `MIX_INTELLIGENCE` job is claimed and
the Analyzer returns a payload: the job `process_one_mix_job` persists
and returns has status `completed`, progress 100, stage "done",
`audit_results` equal to the payload, `error_message` null, and
`started_at` (the claim clock) strictly before `completed_at` (the
finalize clock); `get_mix_result` then returns exactly this finalized
row. -/
theorem successful_cycle_completes_job
    (analyze : String → Except String AuditResults) (now1 now2 : Nat)
    (store : Store) (j : Job) (audit : AuditResults)
    (hu : UniqueIds store) (hj : j ∈ store)
    (hq : j.status = JobStatus.queued) (hty : j.type = "MIX_INTELLIGENCE")
    (han : analyze (effContext j.context) = Except.ok audit)
    (hnow : now1 < now2) :
    (process_one_mix_job analyze id now1 now2 store (some j.id)
      = PyResult.ok
          (process_one_mix_job analyze id now1 now2 store (some j.id)).store
          (some (completeFields now2 audit (beginProcessingFields now1 j))))
    ∧ (completeFields now2 audit (beginProcessingFields now1 j)).status
        = JobStatus.completed
    ∧ (completeFields now2 audit (beginProcessingFields now1 j)).progress = 100
    ∧ (completeFields now2 audit (beginProcessingFields now1 j)).stage = "done"
    ∧ (completeFields now2 audit (beginProcessingFields now1 j)).audit_results
        = some audit
    ∧ (completeFields now2 audit (beginProcessingFields now1 j)).error_message
        = none
    ∧ (completeFields now2 audit (beginProcessingFields now1 j)).started_at
        = some now1
    ∧ (completeFields now2 audit (beginProcessingFields now1 j)).completed_at
        = some now2
    ∧ now1 < now2
    ∧ get_mix_result
        (process_one_mix_job analyze id now1 now2 store (some j.id)).store j.id
        = Except.ok (completeFields now2 audit (beginProcessingFields now1 j)) := by
  have hrun := process_one_success analyze now1 now2 store j audit hu hj hq hty han
  refine ⟨?_, rfl, rfl, rfl, rfl, rfl, rfl, rfl, hnow, ?_⟩
  · rw [hrun]
    rfl
  · rw [hrun]
    have h1 := filter_id_after_claim hu hj hq now1
    have h2 : (applyIf (fun k => decide (k.id = j.id)) (completeFields now2 audit)
        (applyIf (fun k => decide (k.id = j.id ∧ k.status = JobStatus.queued))
          (beginProcessingFields now1) store)).filter
        (fun k => decide (k.id = j.id))
        = [completeFields now2 audit (beginProcessingFields now1 j)] := by
      rw [filter_id_applyIf j.id (fun k => decide (k.id = j.id))
        (completeFields now2 audit) (fun x => rfl), h1]
      simp [beginProcessingFields_id]
    simp only [PyResult.store]
    unfold get_mix_result
    rw [h2]
    rfl

theorem successful_cycle_completes_job_witness :
    get_mix_result (process_one_mix_job okAnalyze id 3 4 [exA] (some 0)).store 0
      = Except.ok (completeFields 4 (build_audit_results 9 "FULL_MIX")
          (beginProcessingFields 3 exA))
    ∧ (completeFields 4 (build_audit_results 9 "FULL_MIX")
        (beginProcessingFields 3 exA)).status = JobStatus.completed := by
  have h := successful_cycle_completes_job okAnalyze 3 4 [exA] exA
      (build_audit_results 9 "FULL_MIX") (by decide) (by decide) rfl rfl rfl
      (by decide)
  exact ⟨h.2.2.2.2.2.2.2.2.2, h.2.1⟩

/-- C5 counterexample: an Analyzer failure on a claimed queued job is not
recorded as `failed`: the exception escapes `process_one_mix_job` and the
stored job stays `processing` with `error_message` null — not `failed`
with the captured message as the claim states. -/
theorem analyzer_failure_not_persisted_counterexample :
    process_one_mix_job (fun _ => Except.error "boom") id 3 4 [exA] (some 0)
      = PyResult.exn [beginProcessingFields 3 exA] "boom"
    ∧ (beginProcessingFields 3 exA).status = JobStatus.processing
    ∧ (beginProcessingFields 3 exA).status ≠ JobStatus.failed
    ∧ (beginProcessingFields 3 exA).error_message = none := by decide

/-- C5 amended: when the Analyzer raises after a successful claim, the
exception propagates out of `process_one_mix_job` uncaught; no `Fail`
transition is applied and no failure outcome is returned — the stored job
stays `processing` with stage "analyzing", `error_message` null and
`audit_results` null, which is what a subsequent `get_mix_result`
shows. -/
theorem analyzer_failure_leaves_job_processing
    (analyze : String → Except String AuditResults) (now1 now2 : Nat)
    (store : Store) (j : Job) (msg : String)
    (hu : UniqueIds store) (hj : j ∈ store)
    (hq : j.status = JobStatus.queued) (hty : j.type = "MIX_INTELLIGENCE")
    (haud : j.audit_results = none)
    (han : analyze (effContext j.context) = Except.error msg) :
    process_one_mix_job analyze id now1 now2 store (some j.id)
      = PyResult.exn
          (applyIf (fun k => decide (k.id = j.id ∧ k.status = JobStatus.queued))
            (beginProcessingFields now1) store) msg
    ∧ get_mix_result
        (process_one_mix_job analyze id now1 now2 store (some j.id)).store j.id
        = Except.ok (beginProcessingFields now1 j)
    ∧ (beginProcessingFields now1 j).status = JobStatus.processing
    ∧ (beginProcessingFields now1 j).stage = "analyzing"
    ∧ (beginProcessingFields now1 j).error_message = none
    ∧ (beginProcessingFields now1 j).audit_results = none := by
  have hrun := process_one_analyzer_error analyze now1 now2 store j msg hu hj hq hty han
  refine ⟨hrun, ?_, rfl, rfl, rfl, ?_⟩
  · rw [hrun]
    show get_mix_result (applyIf _ _ store) j.id = _
    unfold get_mix_result
    rw [filter_id_after_claim hu hj hq now1]
    rfl
  · show j.audit_results = none
    exact haud

theorem analyzer_failure_leaves_job_processing_witness :
    get_mix_result
        (process_one_mix_job (fun _ => Except.error "boom") id 3 4 [exA]
          (some 0)).store 0
      = Except.ok (beginProcessingFields 3 exA)
    ∧ (beginProcessingFields 3 exA).status = JobStatus.processing := by
  have h := analyzer_failure_leaves_job_processing (fun _ => Except.error "boom")
      3 4 [exA] exA "boom" (by decide) (by decide) rfl rfl rfl rfl
  exact ⟨h.2.1, h.2.2.1⟩

/-- C7 counterexample: a truly empty queue and a lost race produce the
byte-for-byte identical `processed=False` response body from
`process_next_mix_job` — the two outcomes are not distinct, contrary to
the claim. -/
theorem lost_race_indistinguishable_counterexample :
    process_next_mix_job okAnalyze id 1 2 [] none
      = PyResult.ok []
          { processed := false, message := some noQueuedMsg, job := none }
    ∧ process_next_mix_job okAnalyze (fun s => (claimUpdate s 0 1).1) 3 4
        [exA] none
      = PyResult.ok [beginProcessingFields 1 exA]
          { processed := false, message := some noQueuedMsg, job := none } := by
  decide

/-- C7 amended: a lost race is never surfaced as a failure to the caller
of `process_next_mix_job` — it yields the normal `processed=False`
response with no further write — but it is not distinct from the
empty-queue outcome: both return the identical response body. -/
theorem lost_race_reported_as_no_work
    (analyze : String → Except String AuditResults) (interfere : Store → Store)
    (now1 now2 : Nat) (store : Store) (job_id : Option Nat)
    (j : Job) (rest : List Job)
    (hsel : selectRows store job_id = j :: rest)
    (hrace : (claimUpdate (interfere store) j.id now1).2 = []) :
    process_next_mix_job analyze interfere now1 now2 store job_id
      = PyResult.ok (interfere store)
          { processed := false, message := some noQueuedMsg, job := none }
    ∧ ∀ (store' : Store) (t : Option Nat), selectRows store' t = [] →
        process_next_mix_job analyze interfere now1 now2 store' t
          = PyResult.ok store'
              { processed := false, message := some noQueuedMsg, job := none } := by
  constructor
  · unfold process_next_mix_job
    rw [process_one_lost_race analyze interfere now1 now2 store job_id j rest
      hsel hrace]
  · intro store' t hsel'
    unfold process_next_mix_job
    rw [process_one_no_rows analyze interfere now1 now2 store' t hsel']

theorem lost_race_reported_as_no_work_witness :
    process_next_mix_job okAnalyze (fun s => (claimUpdate s 0 1).1) 3 4
        [exA] none
      = PyResult.ok [beginProcessingFields 1 exA]
          { processed := false, message := some noQueuedMsg, job := none } := by
  have h := (lost_race_reported_as_no_work okAnalyze
      (fun s => (claimUpdate s 0 1).1) 3 4 [exA] none exA [] (by decide)
      (by decide)).1
  exact h

/-- C8: an enqueue request with `size_bytes = 0` or
`duration_seconds = 0` — or more generally one that fails the declared
field validation (required field missing or out of bounds) — is rejected
with a validation error before any store write: `create_mix_job` returns
the store unchanged and inserts no row. -/
theorem invalid_enqueue_rejected_before_insert
    (gen_id created_at : Nat) (raw : RawMixJobRequest) (store : Store)
    (h : raw.size_bytes = some 0 ∨ raw.duration_seconds = some 0
        ∨ (∃ e, validate_mix_job_request raw = Except.error e)) :
    create_mix_job gen_id created_at raw store
      = CreateResult.validationError store "ValidationError" := by
  have hv : ∃ e, validate_mix_job_request raw = Except.error e := by
    rcases h with h0 | h0 | he
    · exact validate_size_zero h0
    · exact validate_duration_zero h0
    · exact he
  obtain ⟨e, he⟩ := hv
  have hmsg := validate_error_msg he
  subst hmsg
  unfold create_mix_job
  rw [he]

theorem invalid_enqueue_rejected_before_insert_witness :
    create_mix_job 3 0 exRawBad []
      = CreateResult.validationError [] "ValidationError" :=
  invalid_enqueue_rejected_before_insert 3 0 exRawBad [] (Or.inl rfl)

/-- C9: the worker loop exits exactly when a cancellation arrives — never
because of an error; an empty poll sleeps the poll interval, an
unexpected error is reported and the loop sleeps the poll interval and
continues, and a processed job triggers the next claim attempt
immediately with no sleep. -/
theorem worker_loop_exits_only_on_cancellation :
    (∀ es : List LoopEvent, mix_worker_run es = true ↔ LoopEvent.cancelled ∈ es)
    ∧ mix_worker_iteration (LoopEvent.value none)
        = LoopStep.sleepThenContinue POLL_INTERVAL_SECONDS none
    ∧ (∀ j : Job, mix_worker_iteration (LoopEvent.value (some j))
        = LoopStep.continueNow)
    ∧ (∀ m : String, mix_worker_iteration (LoopEvent.raised m)
        = LoopStep.sleepThenContinue POLL_INTERVAL_SECONDS
            (some ("[mix_worker] error: " ++ m)))
    ∧ mix_worker_iteration LoopEvent.cancelled = LoopStep.exitLoop := by
  refine ⟨?_, rfl, fun j => rfl, fun m => rfl, rfl⟩
  intro es
  induction es with
  | nil => simp [mix_worker_run]
  | cons e rest ih =>
    cases e with
    | value r => cases r <;> simp [mix_worker_run, mix_worker_iteration, ih]
    | raised m => simp [mix_worker_run, mix_worker_iteration, ih]
    | cancelled => simp [mix_worker_run, mix_worker_iteration]

end InfiniteAudio
